import Mathlib

/-!
Formal model of `synctree`'s subbranch layer (`synctree/subbranch.py`).

The Python module is embedded shallowly: attribute mappings (Python dicts)
become insertion-ordered association lists, payload objects become attribute
mappings, the tree's node table becomes an association list from full key
strings to nodes, and the stateful import pipeline (`__pos__`,
`process_kwargs`, `make`) becomes explicit state passing over an
`ImportState` record that additionally keeps a trace of `make` invocations so
that call-count properties can be stated.

Python string operations are modelled on the underlying character lists so
that every definition evaluates by kernel reduction.
-/

namespace Synctree

/-- Python `s.startswith(p)` on character lists. -/
def strStartsWith (s p : String) : Bool := p.data.isPrefixOf s.data

/-- Python `s.endswith(p)` on character lists. -/
def strEndsWith (s p : String) : Bool := p.data.reverse.isPrefixOf s.data.reverse

/-- Split a character list on a delimiter character; never returns `[]`,
mirroring Python `str.split(delim)` (for a one-character delimiter). -/
def splitChars (delim : Char) : List Char → List (List Char)
  | [] => [[]]
  | c :: rest =>
    let r := splitChars delim rest
    if c = delim then [] :: r
    else
      match r with
      | [] => [[c]]
      | h :: t => (c :: h) :: t

/-- Python `s.split(delim)` for a one-character delimiter. -/
def strSplitOn (s : String) (delim : Char) : List String :=
  (splitChars delim s.data).map (fun cs => String.mk cs)

/-- Python `s.split(delim)[-1]`: the trailing segment of a delimited key. -/
def strLastSegment (s : String) (delim : Char) : String :=
  (strSplitOn s delim).getLastD ""

/-- ASCII lower-casing of one character, as used by Python `str.lower` on the
identifiers and attribute values this module handles. -/
def charToLower (c : Char) : Char :=
  if 65 ≤ c.toNat ∧ c.toNat ≤ 90 then Char.ofNat (c.toNat + 32) else c

/-- Python `s.lower()`. -/
def strToLower (s : String) : String := String.mk (s.data.map charToLower)

/-- Whitespace test for `str.strip`. -/
def isSpaceChar (c : Char) : Bool := c = ' ' ∨ c = '\t' ∨ c = '\n' ∨ c = '\r'

/-- Python `s.strip()`. -/
def strTrim (s : String) : String :=
  String.mk (((s.data.dropWhile isSpaceChar).reverse.dropWhile isSpaceChar).reverse)

/-- Attribute values occurring in import records and payload objects:
scalars (strings), Python lists of strings, and Python sets of strings. -/
inductive Value where
  | str : String → Value
  | vlist : List String → Value
  | vset : Finset String → Value
deriving DecidableEq

/-- `isinstance(v, list)`. -/
def Value.isVList : Value → Bool
  | .vlist _ => true
  | _ => false

/-- `isinstance(v, set)`. -/
def Value.isVSet : Value → Bool
  | .vset _ => true
  | _ => false

/-- `isinstance(v, (list, set))`, the test used by `process_kwargs`. -/
def Value.isListOrSet : Value → Bool
  | .str _ => false
  | _ => true

/-- A Python dict from attribute name to value: an insertion-ordered
association list with (by construction) unique keys. -/
abbrev Attrs := List (String × Value)

/-- Dict lookup: `a[k]` / `a.get(k)` as an `Option`. -/
def Attrs.find? (a : Attrs) (k : String) : Option Value :=
  match a with
  | [] => none
  | (k2, v) :: rest => if k2 = k then some v else Attrs.find? rest k

/-- Dict membership: `k in a`. -/
def Attrs.hasKey (a : Attrs) (k : String) : Bool :=
  a.any (fun p => p.1 = k)

/-- Dict deletion: `del a[k]`. -/
def Attrs.eraseKey (a : Attrs) (k : String) : Attrs :=
  a.filter (fun p => ¬ p.1 = k)

/-- Dict assignment `a[k] = v`: replaces in place when the key exists,
appends otherwise (Python insertion-order semantics). -/
def Attrs.assign (a : Attrs) (k : String) (v : Value) : Attrs :=
  if a.any (fun p => p.1 = k) then a.map (fun p => if p.1 = k then (k, v) else p)
  else a ++ [(k, v)]

/-- Dict update `a.update(b)`. -/
def Attrs.updateWith (a b : Attrs) : Attrs :=
  b.foldl (fun acc p => Attrs.assign acc p.1 p.2) a

/-- A payload object, modelled by its attribute mapping. -/
abbrev Obj := Attrs

/-- Modelled from the spec: attribute access on payload objects (the object
base class lives outside `subbranch.py`); per the spec a missing attribute
yields an absent value, which is treated as falsy by `find_all`. -/
def Obj.getattr (o : Obj) (a : String) : Option Value := Attrs.find? o a

/-- A tree node: full key paired with an optional payload (`node.data`);
a node with `data = none` is a placeholder. -/
structure Node where
  data : Option Obj
deriving DecidableEq

/-- The tree's node table `tree._nodes`: full key string to node. -/
abbrev Store := List (String × Node)

/-- The key set of the node table. -/
def Store.keys (s : Store) : List String := s.map Prod.fst

/-- Keyed lookup in the node table (first match; keys are unique by
construction since insertion rejects duplicates). -/
def Store.get? (s : Store) (key : String) : Option Node :=
  match s with
  | [] => none
  | (k, nd) :: rest => if k = key then some nd else Store.get? rest key

/-- Keep the first occurrence of each element, dropping later duplicates:
the identifier enumeration order used when iterating a derived set. -/
def dedupFrom (seen : List String) : List String → List String
  | [] => []
  | x :: xs => if x ∈ seen then dedupFrom seen xs else x :: dedupFrom (x :: seen) xs

/-- First-occurrence deduplication. -/
def dedupFirst (l : List String) : List String := dedupFrom [] l

/-- A `SubBranch`'s identity: its branch name, subbranch name and the tree's
path delimiter (`tree.path_delim`, modelled as one character). -/
structure SubBranch where
  branchname : String
  subbranchname : String
  pathDelim : Char
deriving DecidableEq

/-- Modelled from the spec: `tree.keypath(branchname, subbranchname)` (the
keypath join lives in the tree module, outside `subbranch.py`): segments
joined by the delimiter.  This is `self.parent_keypath`. -/
def SubBranch.parent_keypath (sb : SubBranch) : String :=
  String.mk (sb.branchname.data ++ [sb.pathDelim] ++ sb.subbranchname.data)

/-- The prefix `f"{self.parent_keypath}{self.path_delim}"` used by
`_idnumbers`. -/
def SubBranch.childKeyPath (sb : SubBranch) : String :=
  String.mk (sb.parent_keypath.data ++ [sb.pathDelim])

/-- Modelled from the spec: `tree.keypath(branchname, subbranchname,
idnumber)`, the full key of one identifier's node. -/
def SubBranch.keyFor (sb : SubBranch) (idnumber : String) : String :=
  String.mk (sb.parent_keypath.data ++ [sb.pathDelim] ++ idnumber.data)

/-- `SubBranch._idnumbers` as an enumeration in store-scan order: trailing
segments of the keys of `tree._nodes` that do not end with the subbranch name
and start with the parent key path plus delimiter. -/
def SubBranch.idnumbersList (sb : SubBranch) (keys : List String) : List String :=
  dedupFirst
    ((keys.filter (fun key =>
        !(strEndsWith key sb.subbranchname) &&
        strStartsWith key sb.childKeyPath)).map
      (fun key => strLastSegment key sb.pathDelim))

/-- `SubBranch._idnumbers` (also the base class's `idnumbers` property) as a
set. -/
def SubBranch.idnumbers (sb : SubBranch) (keys : List String) : Finset String :=
  (sb.idnumbersList keys).toFinset

/-- The identifier set as claim C2 words it: trailing segments of keys that
start with the parent key path plus delimiter, excluding only the key exactly
equal to the subbranch's own path-terminal key. -/
def SubBranch.idnumbersClaimed (sb : SubBranch) (keys : List String) : Finset String :=
  ((keys.filter (fun key =>
      strStartsWith key sb.childKeyPath && !(key = sb.parent_keypath))).map
    (fun key => strLastSegment key sb.pathDelim)).toFinset

/-- `SubBranch.get`: looks the full key path up directly in the store;
`tree.get_node` yields nothing for a missing key, and the `AttributeError`
from taking `.data` of that nothing is caught and turned into `None`, so the
result is the node's payload when the node exists and `none` otherwise. -/
def SubBranch.get (sb : SubBranch) (store : Store) (idnumber : String) : Option Obj :=
  match Store.get? store (sb.keyFor idnumber) with
  | none => none
  | some nd => nd.data

/-- The body shared by `get_objects` and `get_objects_force_all`: index the
node table at each identifier's reconstructed full key (a missing key is a
`KeyError`, modelled as `none`), then keep the payloads that are not null. -/
def getObjectsFrom (sb : SubBranch) (store : Store) : List String → Option (List Obj)
  | [] => some []
  | i :: rest =>
    match Store.get? store (sb.keyFor i) with
    | none => none
    | some nd =>
      match getObjectsFrom sb store rest with
      | none => none
      | some objs =>
        some (match nd.data with
              | some d => d :: objs
              | none => objs)

/-- `SubBranch.get_objects` for the base class, whose `idnumbers` property is
`_idnumbers`: iterate the derived identifier set in store-scan order. -/
def SubBranch.get_objects (sb : SubBranch) (store : Store) : Option (List Obj) :=
  getObjectsFrom sb store (sb.idnumbersList (Store.keys store))

/-- `SubBranch.get_objects_force_all`: always iterates `_idnumbers`, the
non-overridden full scan. -/
def SubBranch.get_objects_force_all (sb : SubBranch) (store : Store) : Option (List Obj) :=
  getObjectsFrom sb store (sb.idnumbersList (Store.keys store))

/-- Parsing of a `find_all` query: `a, v = [s.strip() for s in
search_string.split(":")]` succeeds exactly when the split yields two parts
(otherwise Python raises `ValueError`, modelled as `none`). -/
def parseQuery (q : String) : Option (String × String) :=
  match (splitChars ':' q.data).map (fun cs => strTrim (String.mk cs)) with
  | [a, v] => some (a, v)
  | _ => none

/-- The outcome of a Python call that may raise: either a raised exception or
a returned value. -/
inductive PyResult (α : Type) where
  | raised : PyResult α
  | val : α → PyResult α
deriving DecidableEq

/-- One candidate test in `find_all`: `val and
val.lower().startswith(v.lower())`.  An absent attribute is falsy (see
`Obj.getattr`), an empty string or empty collection is falsy and skipped, and
a truthy non-string value would make `.lower()` raise `AttributeError`. -/
def valMatches (val : Option Value) (v : String) : PyResult Bool :=
  match val with
  | none => .val false
  | some (Value.str s) =>
    .val (!(s = "") && strStartsWith (strToLower s) (strToLower v))
  | some (Value.vlist xs) => if xs = [] then .val false else .raised
  | some (Value.vset xs) => if xs = ∅ then .val false else .raised

/-- The accumulation loop of `find_all` over the candidate objects. -/
def filterMatches (a v : String) : List Obj → PyResult (List Obj)
  | [] => .val []
  | o :: os =>
    match valMatches (Obj.getattr o a) v with
    | .raised => .raised
    | .val b =>
      match filterMatches a v os with
      | .raised => .raised
      | .val r => .val (if b then o :: r else r)

/-- `SubBranch.find_all` for the base class: parse the query (`ValueError`
on a malformed one), scan `get_objects`, collect the case-insensitive prefix
matches in iteration order, and return `None` when nothing matched. -/
def SubBranch.find_all (sb : SubBranch) (store : Store) (q : String) :
    PyResult (Option (List Obj)) :=
  match parseQuery q with
  | none => .raised
  | some (a, v) =>
    match sb.get_objects store with
    | none => .raised
    | some objs =>
      match filterMatches a v objs with
      | .raised => .raised
      | .val ms => .val (if ms = [] then none else some ms)

/-- Modelled from the spec: the importer capability set used by
`subbranch.py` (concrete importers, including the default one, live outside
it): a preprocessing hook (mapping to mapping-or-null) and a
duplicate-resolution hook (existing object and new attributes to
object-or-null).  The record source is passed separately to the import run. -/
structure Importer where
  kwargsPreprocessor : Attrs → Option Attrs
  resolveDuplicate : Option Obj → Attrs → Option Obj

/-- Modelled from the spec: the default no-op importer; its preprocessor
returns the mapping unchanged and its duplicate resolution keeps the
existing object. -/
def defaultImporter : Importer :=
  { kwargsPreprocessor := fun kw => some kw
    resolveDuplicate := fun existing _ => existing }

/-- The outcome of one `make` call: the store afterwards, the returned
object, and the trace of `resolve_duplicate` invocations (argument pairs)
performed during the call. -/
structure MakeResult where
  store : Store
  result : Option Obj
  dupCalls : List (Option Obj × Attrs)
deriving DecidableEq

/-- `SubBranch.make`: try `tree.new` at the computed key (modelled from the
spec's store contract: insert a node whose payload is built from the
attributes, rejecting a duplicate key); on `Duplicated`, hand
`(self.get(idnumber), **kwargs)` to the importer's `resolve_duplicate` and
return its result verbatim. -/
def SubBranch.make (sb : SubBranch) (imp : Importer) (store : Store)
    (idnumber : String) (kwargs : Attrs) : MakeResult :=
  let key := sb.keyFor idnumber
  match Store.get? store key with
  | some _ =>
    { store := store
      result := imp.resolveDuplicate (sb.get store idnumber) kwargs
      dupCalls := [(sb.get store idnumber, kwargs)] }
  | none =>
    { store := store ++ [(key, { data := some kwargs })]
      result := some kwargs
      dupCalls := [] }

/-- The mutable state of one import run (`__pos__`): the fragment buffer
`self._temp` (a `defaultdict(list)` in insertion order), the fresh-identifier
counter `self._index`, the store, and a trace of the `make` invocations made
so far (identifier and keyword arguments of each call). -/
structure ImportState where
  temp : List (String × List Attrs)
  index : Nat
  store : Store
  makeCalls : List (String × Attrs)
deriving DecidableEq

/-- `self._temp[idnumber].append(kwargs)` on a `defaultdict(list)`. -/
def tempAppend (t : List (String × List Attrs)) (idnumber : String) (kw : Attrs) :
    List (String × List Attrs) :=
  if t.any (fun p => p.1 = idnumber) then
    t.map (fun p => if p.1 = idnumber then (p.1, p.2 ++ [kw]) else p)
  else t ++ [(idnumber, [kw])]

/-- One `make` call inside the import run, recorded in the trace. -/
def doMake (sb : SubBranch) (imp : Importer) (st : ImportState)
    (idnumber : String) (kwargs : Attrs) : ImportState :=
  let r := sb.make imp st.store idnumber kwargs
  { st with store := r.store, makeCalls := st.makeCalls ++ [(idnumber, kwargs)] }

/-- `SubBranch.process_kwargs`: preprocess (discarding the record when the
hook yields null), detect list- or set-valued attributes, choose the
identifier (an explicit `idnumber` attribute is used and deleted from the
mapping, otherwise the run counter is used and incremented), then either
buffer the fragment or `make` immediately. -/
def SubBranch.process_kwargs (sb : SubBranch) (imp : Importer)
    (st : ImportState) (kwargsIn : Attrs) : ImportState :=
  match imp.kwargsPreprocessor kwargsIn with
  | none => st
  | some kwargs =>
    let hasListValue := kwargs.any (fun p => p.2.isListOrSet)
    match Attrs.find? kwargs "idnumber" with
    | none =>
      let idnumber := toString st.index
      if hasListValue then
        { st with temp := tempAppend st.temp idnumber kwargs, index := st.index + 1 }
      else
        doMake sb imp { st with index := st.index + 1 } idnumber kwargs
    | some v =>
      let idnumber := match v with
        | Value.str s => s
        | _ => ""
      let kwargs2 := Attrs.eraseKey kwargs "idnumber"
      if hasListValue then
        { st with temp := tempAppend st.temp idnumber kwargs2 }
      else
        doMake sb imp st idnumber kwargs2

/-- The inner body of the merge loop in `__pos__` for one buffered fragment
`item`: concatenate its list-valued attributes into the accumulator (the
snapshot-then-delete dance leaves `item` without those keys), union its
set-valued attributes, then let its remaining scalar attributes overwrite the
accumulator via `prepared.update(item)`. -/
def stepItem (prepared item : Attrs) : Attrs :=
  let p1 := item.foldl
    (fun acc p =>
      match p.2 with
      | Value.vlist xs =>
        match Attrs.find? acc p.1 with
        | some (Value.vlist ys) => Attrs.assign acc p.1 (Value.vlist (ys ++ xs))
        | _ => Attrs.assign acc p.1 (Value.vlist xs)
      | _ => acc)
    prepared
  let item1 := item.filter (fun p => !(p.2.isVList))
  let p2 := item1.foldl
    (fun acc p =>
      match p.2 with
      | Value.vset xs =>
        match Attrs.find? acc p.1 with
        | some (Value.vset ys) => Attrs.assign acc p.1 (Value.vset (ys ∪ xs))
        | _ => Attrs.assign acc p.1 (Value.vset xs)
      | _ => acc)
    p1
  let item2 := item1.filter (fun p => !(p.2.isVSet))
  Attrs.updateWith p2 item2

/-- The merge loop of `__pos__` for one identifier's buffered fragment list:
fold the fragments in arrival order through `stepItem`, calling `make` inside
the per-fragment loop (as the source does) with the accumulator merged so
far. -/
def mergeFragments (sb : SubBranch) (imp : Importer) (idnumber : String)
    (frags : List Attrs) (st : ImportState) : ImportState :=
  (frags.foldl
    (fun acc item =>
      let p2 := stepItem acc.1 item
      (p2, doMake sb imp acc.2 idnumber p2))
    (([] : Attrs), st)).2

/-- The merge phase of `__pos__`: process every buffered identifier in
buffer-insertion order. -/
def mergePhase (sb : SubBranch) (imp : Importer) (st : ImportState) : ImportState :=
  st.temp.foldl (fun acc p => mergeFragments sb imp p.1 p.2 acc) st

/-- `SubBranch.__pos__`: reset the fragment buffer and the identifier
counter, drain every record from the reader through `process_kwargs` (the
generator and context-manager reader shapes both reduce to iterating the
records in order), then run the merge phase over the buffered fragments.
The completion hook, when present, runs after everything and does not touch
the modelled state. -/
def SubBranch.posRun (sb : SubBranch) (imp : Importer) (records : List Attrs)
    (store0 : Store) : ImportState :=
  let st0 : ImportState := { temp := [], index := 0, store := store0, makeCalls := [] }
  mergePhase sb imp (records.foldl (fun st r => sb.process_kwargs imp st r) st0)

/-- `SubBranchOff`, the excluded variant: same identity as a base subbranch;
it overrides the synchronization operators and iteration. -/
structure SubBranchOff where
  toSubBranch : SubBranch
deriving DecidableEq

/-- `SubBranchOff.__sub__`: `yield from []`, viewed as a set. -/
def SubBranchOff.subOp (_x : SubBranchOff) (_other : SubBranch)
    (_keysX _keysOther : List String) : Finset String := ∅

/-- `SubBranchOff.__and__`: `yield from []`, viewed as a set. -/
def SubBranchOff.andOp (_x : SubBranchOff) (_other : SubBranch)
    (_keysX _keysOther : List String) : Finset String := ∅

/-- `SubBranchOff.__iter__`: the force-all path. -/
def SubBranchOff.iter (x : SubBranchOff) (store : Store) : Option (List Obj) :=
  x.toSubBranch.get_objects_force_all store

/-- `SubBranchNarrow`, the narrowed variant: wraps a pre-supplied identifier
collection next to the ordinary subbranch identity. -/
structure SubBranchNarrow where
  toSubBranch : SubBranch
  toNarrow : List String
deriving DecidableEq

/-- `SubBranchNarrow.idnumbers`: `set(self._to_narrow)`; the store is not
consulted at all. -/
def SubBranchNarrow.idnumbers (n : SubBranchNarrow) : Finset String :=
  n.toNarrow.toFinset

/-- `get_objects` as inherited by `SubBranchNarrow`: the loop runs over the
overridden `idnumbers` property, i.e. over the wrapped collection. -/
def SubBranchNarrow.get_objects (n : SubBranchNarrow) (store : Store) :
    Option (List Obj) :=
  getObjectsFrom n.toSubBranch store (dedupFirst n.toNarrow)

/-- `SubBranchNarrow.__iter__`: overridden to the force-all path, which scans
`_idnumbers` and therefore ignores the narrowing. -/
def SubBranchNarrow.iter (n : SubBranchNarrow) (store : Store) : Option (List Obj) :=
  n.toSubBranch.get_objects_force_all store

/-- `SubBranch.__sub__` for base subbranches: the identifiers of `a` not
found in `b`, as the set the generator yields. -/
def SubBranch.subOp (a : SubBranch) (keysA : List String) (b : SubBranch)
    (keysB : List String) : Finset String :=
  a.idnumbers keysA \ b.idnumbers keysB

/-- `SubBranch.__and__` for base subbranches: the common identifiers. -/
def SubBranch.andOp (a : SubBranch) (keysA : List String) (b : SubBranch)
    (keysB : List String) : Finset String :=
  a.idnumbers keysA ∩ b.idnumbers keysB

/-- The match predicate of claim C8 as amended: the named attribute holds a
truthy (nonempty) string whose lower-cased form starts with the lower-cased
value. -/
def matchesQuery (o : Obj) (a v : String) : Bool :=
  match Obj.getattr o a with
  | some (Value.str s) => !(s = "") && strStartsWith (strToLower s) (strToLower v)
  | _ => false

/-- Example subbranch: branch `b`, subbranch `s`, delimiter `/`. -/
def exSB : SubBranch := { branchname := "b", subbranchname := "s", pathDelim := '/' }

/-- Claim C1's record stream: three fragments for identifier `5`. -/
def c1Records : List Attrs :=
  [[("idnumber", Value.str "5"), ("tags", Value.vlist ["a"])],
   [("idnumber", Value.str "5"), ("tags", Value.vlist ["b"]), ("name", Value.str "x")],
   [("idnumber", Value.str "5"), ("tags", Value.vlist ["c"]), ("name", Value.str "y")]]

/-- An example payload object with one `name` attribute. -/
def exObjN (nm : String) : Obj := [("name", Value.str nm)]

/-- Store with identifiers 1, 2, 3, 7 and 9 under `b/s`. -/
def exStore3 : Store :=
  [("b/s/1", { data := some (exObjN "n1") }),
   ("b/s/2", { data := some (exObjN "n2") }),
   ("b/s/3", { data := some (exObjN "n3") }),
   ("b/s/7", { data := some (exObjN "n7") }),
   ("b/s/9", { data := some (exObjN "n9") })]

/-- A narrowed subbranch over `exSB` wrapping the identifiers 3 and 7. -/
def exNarrow : SubBranchNarrow := { toSubBranch := exSB, toNarrow := ["3", "7"] }

/-- Store with three named objects for the `find_all` examples. -/
def exStoreNames : Store :=
  [("b/s/1", { data := some (exObjN "John") }),
   ("b/s/2", { data := some (exObjN "Joanna") }),
   ("b/s/3", { data := some (exObjN "Mark") })]

/-- Store with a single object whose `name` attribute is the empty string. -/
def exStoreEmptyName : Store := [("b/s/1", { data := some (exObjN "") })]

/-- An object without a `name` attribute. -/
def exObjNoName : Obj := [("other", Value.str "z")]

/-- Store mixing an object that has a `name` attribute with one that lacks
it. -/
def exStoreMixed : Store :=
  [("b/s/1", { data := some (exObjN "John") }),
   ("b/s/2", { data := some exObjNoName })]

/-- An importer whose duplicate resolution replaces the object with the new
attributes. -/
def exImporterReplace : Importer :=
  { kwargsPreprocessor := fun kw => some kw
    resolveDuplicate := fun _ kw => some kw }

/-- The empty import-run state over the empty store. -/
def exState0 : ImportState := { temp := [], index := 0, store := [], makeCalls := [] }

/-- A record carrying an explicit identifier attribute. -/
def exRec7 : Attrs := [("idnumber", Value.str "7"), ("x", Value.str "v")]

/-- Three scalar-only records without explicit identifiers. -/
def exScalarRecords : List Attrs :=
  [[("x", Value.str "p")], [("x", Value.str "q")], [("x", Value.str "r")]]

lemma mem_dedupFrom (x : String) (seen l : List String) :
    x ∈ dedupFrom seen l ↔ x ∈ l ∧ x ∉ seen := by
  induction l generalizing seen with
  | nil => simp [dedupFrom]
  | cons a l ih =>
    simp only [dedupFrom, List.mem_cons]
    by_cases h : a ∈ seen
    · rw [if_pos h, ih]
      constructor
      · rintro ⟨h1, h2⟩
        exact ⟨Or.inr h1, h2⟩
      · rintro ⟨h1 | h1, h2⟩
        · subst h1
          exact absurd h h2
        · exact ⟨h1, h2⟩
    · rw [if_neg h]
      simp only [List.mem_cons, ih]
      constructor
      · rintro (rfl | ⟨h1, h2⟩)
        · exact ⟨Or.inl rfl, h⟩
        · exact ⟨Or.inr h1, fun hx => h2 (Or.inr hx)⟩
      · rintro ⟨h1 | h1, h2⟩
        · subst h1
          exact Or.inl rfl
        · by_cases hxa : x = a
          · exact Or.inl hxa
          · refine Or.inr ⟨h1, fun hx => ?_⟩
            rcases hx with hx1 | hx1
            · exact hxa hx1
            · exact h2 hx1

lemma mem_dedupFirst (x : String) (l : List String) :
    x ∈ dedupFirst l ↔ x ∈ l := by
  simp [dedupFirst, mem_dedupFrom]

/-- Claim C1 (code bug): on the spec's own merge example — fragments
`tags=[a]`, then `tags=[b], name=x`, then `tags=[c], name=y` for identifier
`5` — the merge phase of `__pos__` calls `make` once per fragment (three
times), not exactly once per identifier, because the `make` call sits inside
the per-fragment loop.  The first call creates the node, so the stored object
holds only `tags=[a]`; the fully merged attributes `tags=[a,b,c], name=y`
only ever reach the duplicate-resolution hook. -/
theorem c1_import_merge_make_per_fragment :
    (exSB.posRun defaultImporter c1Records []).makeCalls =
      [("5", [("tags", Value.vlist ["a"])]),
       ("5", [("tags", Value.vlist ["a", "b"]), ("name", Value.str "x")]),
       ("5", [("tags", Value.vlist ["a", "b", "c"]), ("name", Value.str "y")])] ∧
    (exSB.posRun defaultImporter c1Records []).store =
      [(exSB.keyFor "5", { data := some [("tags", Value.vlist ["a"])] })] := by
  decide

/-- Claim C2 (counterexample): `_idnumbers` does not exclude "only the key
exactly equal to the subbranch's own path-terminal key": the key `b/s/as`
starts with `b/s/` and differs from `b/s`, yet its identifier `as` is dropped
because the key merely ends with the subbranch name `s`. -/
theorem c2_idnumbers_exclusion_counterexample :
    exSB.idnumbers ["b/s/as"] ≠ exSB.idnumbersClaimed ["b/s/as"] ∧
    exSB.idnumbers ["b/s/as"] = ∅ ∧
    exSB.idnumbersClaimed ["b/s/as"] = {"as"} := by
  refine ⟨?_, ?_, ?_⟩ <;> decide

/-- Claim C2 as amended: an identifier is in `_idnumbers` exactly when some
store key starts with the parent key path plus delimiter, does not end with
the subbranch name (this excludes the subbranch's own placeholder key and
also every child key whose text ends with the subbranch name), and has that
identifier as its trailing segment; the set is a pure function of the current
key set, so every access reflects the current store state. -/
theorem c2_idnumbers_amended (sb : SubBranch) (keys : List String) (i : String) :
    i ∈ sb.idnumbers keys ↔
      ∃ key, key ∈ keys ∧ strStartsWith key sb.childKeyPath = true ∧
        strEndsWith key sb.subbranchname = false ∧
        strLastSegment key sb.pathDelim = i := by
  simp only [SubBranch.idnumbers, SubBranch.idnumbersList, List.mem_toFinset,
    mem_dedupFirst, List.mem_map, List.mem_filter, Bool.and_eq_true,
    Bool.not_eq_true']
  constructor
  · rintro ⟨key, ⟨hk, he, hs⟩, hi⟩
    exact ⟨key, hk, hs, he, hi⟩
  · rintro ⟨key, hk, hs, he, hi⟩
    exact ⟨key, ⟨hk, he, hs⟩, hi⟩

lemma getObjectsFrom_mem (sb : SubBranch) (store : Store) (ids : List String)
    (objs : List Obj) (o : Obj) (h : getObjectsFrom sb store ids = some objs)
    (ho : o ∈ objs) :
    ∃ i ∈ ids, Store.get? store (sb.keyFor i) = some { data := some o } := by
  induction ids generalizing objs with
  | nil =>
    simp only [getObjectsFrom, Option.some.injEq] at h
    subst h
    cases ho
  | cons i rest ih =>
    simp only [getObjectsFrom] at h
    split at h
    next hnd => exact Option.noConfusion h
    next nd hnd =>
      split at h
      next hrest => exact Option.noConfusion h
      next objs2 hrest =>
        injection h with h
        split at h
        next d hdata =>
          subst h
          rcases List.mem_cons.mp ho with hod | ho2
          · subst hod
            refine ⟨i, List.mem_cons_self i rest, ?_⟩
            rw [hnd]
            cases nd
            simp only at hdata
            rw [hdata]
          · obtain ⟨j, hj, hjs⟩ := ih objs2 hrest ho2
            exact ⟨j, List.mem_cons_of_mem _ hj, hjs⟩
        next hdata =>
          subst h
          obtain ⟨j, hj, hjs⟩ := ih objs2 hrest ho
          exact ⟨j, List.mem_cons_of_mem _ hj, hjs⟩

/-- Claim C3 (counterexample): a narrowed subbranch wrapping the identifiers
3 and 7 does report `idnumbers == {3, 7}` against a store holding 1, 2, 3, 7
and 9 — but iterating it does not restrict to that collection: its `__iter__`
is overridden to the force-all path, so it yields all five stored objects,
not exactly the objects of the wrapped identifiers. -/
theorem c3_narrow_iteration_counterexample :
    exNarrow.idnumbers = ({"3", "7"} : Finset String) ∧
    exNarrow.iter exStore3 =
      some [exObjN "n1", exObjN "n2", exObjN "n3", exObjN "n7", exObjN "n9"] ∧
    ((exNarrow.iter exStore3).getD []).toFinset ≠
      ({exObjN "n3", exObjN "n7"} : Finset Obj) := by
  refine ⟨?_, ?_, ?_⟩ <;> decide

/-- Claim C3 as amended: a narrowed subbranch's `idnumbers` is exactly the
set of the wrapped collection (the store is not consulted), and the inherited
`get_objects` read path resolves only identifiers of that collection through
the real store; iteration, however, is overridden to the force-all scan of
every physical child. -/
theorem c3_narrow_idnumbers_amended (n : SubBranchNarrow) (store : Store) :
    n.idnumbers = n.toNarrow.toFinset ∧
    (∀ objs o, n.get_objects store = some objs → o ∈ objs →
      ∃ i ∈ n.toNarrow, Store.get? store (n.toSubBranch.keyFor i) =
        some { data := some o }) ∧
    n.iter store = n.toSubBranch.get_objects_force_all store := by
  refine ⟨rfl, ?_, rfl⟩
  intro objs o h ho
  obtain ⟨i, hi, hs⟩ :=
    getObjectsFrom_mem n.toSubBranch store (dedupFirst n.toNarrow) objs o h ho
  exact ⟨i, (mem_dedupFirst i n.toNarrow).mp hi, hs⟩

/-- Witness for `c3_narrow_idnumbers_amended` at the example narrowed
subbranch and store. -/
theorem c3_narrow_idnumbers_amended_witness :
    exNarrow.idnumbers = (["3", "7"] : List String).toFinset ∧
    (∃ i ∈ exNarrow.toNarrow,
      Store.get? exStore3 (exNarrow.toSubBranch.keyFor i) =
        some { data := some (exObjN "n3") }) ∧
    exNarrow.iter exStore3 = exNarrow.toSubBranch.get_objects_force_all exStore3 := by
  obtain ⟨h1, h2, h3⟩ := c3_narrow_idnumbers_amended exNarrow exStore3
  exact ⟨h1, h2 [exObjN "n3", exObjN "n7"] (exObjN "n3") (by decide) (by decide), h3⟩

/-- Claim C4: for base subbranches the two differences and the intersection
partition the union of the identifier sets — pairwise disjoint with union
`idnumbers(A) ∪ idnumbers(B)` — and self-difference is empty while
self-intersection is the full identifier set. -/
theorem c4_sync_operators_partition (a : SubBranch) (keysA : List String)
    (b : SubBranch) (keysB : List String) :
    Disjoint (a.subOp keysA b keysB) (b.subOp keysB a keysA) ∧
    Disjoint (a.subOp keysA b keysB) (a.andOp keysA b keysB) ∧
    Disjoint (b.subOp keysB a keysA) (a.andOp keysA b keysB) ∧
    a.subOp keysA b keysB ∪ b.subOp keysB a keysA ∪ a.andOp keysA b keysB =
      a.idnumbers keysA ∪ b.idnumbers keysB ∧
    a.subOp keysA a keysA = ∅ ∧
    a.andOp keysA a keysA = a.idnumbers keysA := by
  refine ⟨?_, ?_, ?_, ?_, ?_, ?_⟩
  · rw [Finset.disjoint_left]
    intro x hx hy
    rw [SubBranch.subOp, Finset.mem_sdiff] at hx hy
    exact hy.2 hx.1
  · rw [Finset.disjoint_left]
    intro x hx hy
    rw [SubBranch.subOp, Finset.mem_sdiff] at hx
    rw [SubBranch.andOp, Finset.mem_inter] at hy
    exact hx.2 hy.2
  · rw [Finset.disjoint_left]
    intro x hx hy
    rw [SubBranch.subOp, Finset.mem_sdiff] at hx
    rw [SubBranch.andOp, Finset.mem_inter] at hy
    exact hx.2 hy.1
  · ext x
    simp only [SubBranch.subOp, SubBranch.andOp, Finset.mem_union,
      Finset.mem_sdiff, Finset.mem_inter]
    tauto
  · rw [SubBranch.subOp, Finset.sdiff_self]
  · rw [SubBranch.andOp, Finset.inter_self]

/-- Claim C5: an excluded-variant subbranch yields nothing from either
synchronization operator, whatever the other subbranch and whatever the
stores contain. -/
theorem c5_excluded_operators_empty (x : SubBranchOff) (other : SubBranch)
    (keysX keysOther : List String) :
    x.subOp other keysX keysOther = ∅ ∧ x.andOp other keysX keysOther = ∅ :=
  ⟨rfl, rfl⟩

/-- Claim C6: when a node already exists at the identifier's key, `make`
invokes the importer's duplicate-resolution hook exactly once, passing the
existing payload (`self.get(idnumber)`) and the new attributes, returns the
hook's result verbatim, and leaves the store unchanged. -/
theorem c6_make_duplicate_hook (sb : SubBranch) (imp : Importer) (store : Store)
    (idnumber : String) (kwargs : Attrs) (nd : Node)
    (h : Store.get? store (sb.keyFor idnumber) = some nd) :
    (sb.make imp store idnumber kwargs).dupCalls =
      [(sb.get store idnumber, kwargs)] ∧
    (sb.make imp store idnumber kwargs).result =
      imp.resolveDuplicate (sb.get store idnumber) kwargs ∧
    (sb.make imp store idnumber kwargs).store = store := by
  rw [SubBranch.make]
  rw [h]
  exact ⟨rfl, rfl, rfl⟩

/-- Witness for `c6_make_duplicate_hook`: identifier 1 already exists in the
example store, so `make` with replacing duplicate resolution reports exactly
one hook call with the existing object and the new attributes. -/
theorem c6_make_duplicate_hook_witness :
    (exSB.make exImporterReplace exStoreNames "1" [("name", Value.str "Z")]).dupCalls =
      [(exSB.get exStoreNames "1", [("name", Value.str "Z")])] ∧
    (exSB.make exImporterReplace exStoreNames "1" [("name", Value.str "Z")]).result =
      exImporterReplace.resolveDuplicate (exSB.get exStoreNames "1")
        [("name", Value.str "Z")] ∧
    (exSB.make exImporterReplace exStoreNames "1" [("name", Value.str "Z")]).store =
      exStoreNames :=
  c6_make_duplicate_hook exSB exImporterReplace exStoreNames "1"
    [("name", Value.str "Z")] { data := some (exObjN "John") } (by decide)

/-- Claim C7: `get` looks the full key path up in the store and returns the
node's payload when the node exists; for a missing node it returns the
explicit not-found result (the model is total, mirroring the caught
`AttributeError`). -/
theorem c7_get_not_found (sb : SubBranch) (store : Store) (idnumber : String) :
    (Store.get? store (sb.keyFor idnumber) = none → sb.get store idnumber = none) ∧
    (∀ nd, Store.get? store (sb.keyFor idnumber) = some nd →
      sb.get store idnumber = nd.data) := by
  constructor
  · intro h
    rw [SubBranch.get, h]
  · intro nd h
    rw [SubBranch.get, h]

/-- Witness for `c7_get_not_found`: a missing identifier gives `none`, an
existing one gives its payload. -/
theorem c7_get_not_found_witness :
    exSB.get exStoreNames "missing" = none ∧
    exSB.get exStoreNames "1" = some (exObjN "John") :=
  ⟨(c7_get_not_found exSB exStoreNames "missing").1 (by decide),
   (c7_get_not_found exSB exStoreNames "1").2 { data := some (exObjN "John") }
     (by decide)⟩

/-- The named attribute is either absent or holds a string: the value shapes
under which `find_all` cannot raise on a candidate. -/
def strOrAbsent (o : Obj) (a : String) : Bool :=
  match Obj.getattr o a with
  | none => true
  | some (Value.str _) => true
  | some _ => false

lemma filterMatches_eq_filter (a v : String) (objs : List Obj)
    (h : ∀ o ∈ objs, strOrAbsent o a = true) :
    filterMatches a v objs = .val (objs.filter (fun o => matchesQuery o a v)) := by
  induction objs with
  | nil => rfl
  | cons o os ih =>
    have hos : ∀ o2 ∈ os, strOrAbsent o2 a = true :=
      fun o2 ho2 => h o2 (List.mem_cons_of_mem o ho2)
    rcases hval : Obj.getattr o a with _ | val
    · simp only [filterMatches, valMatches, hval, ih hos, List.filter_cons,
        matchesQuery]
    · have hso := h o (List.mem_cons_self o os)
      simp only [strOrAbsent, hval] at hso
      cases val with
      | str s =>
        simp only [filterMatches, valMatches, hval, ih hos, List.filter_cons,
          matchesQuery]
      | vlist xs => simp at hso
      | vset xs => simp at hso

lemma find_all_eq_filter (sb : SubBranch) (store : Store) (q a v : String)
    (objs : List Obj) (hq : parseQuery q = some (a, v))
    (ho : sb.get_objects store = some objs)
    (hs : ∀ o ∈ objs, strOrAbsent o a = true) :
    sb.find_all store q =
      .val (if objs.filter (fun o => matchesQuery o a v) = [] then none
            else some (objs.filter (fun o => matchesQuery o a v))) := by
  simp only [SubBranch.find_all, hq, ho, filterMatches_eq_filter a v objs hs]

/-- Claim C8 (counterexample): over a store whose only object carries
`name == ""`, the query `name: ` parses to attribute `name` and value `""`;
that object's attribute does case-insensitively start with the value (every
string starts with the empty string), yet `find_all` returns the empty
result, because the truthiness guard `val and ...` skips falsy (empty)
attribute values before the prefix test. -/
theorem c8_find_all_truthiness_counterexample :
    parseQuery "name: " = some ("name", "") ∧
    exSB.get_objects exStoreEmptyName = some [exObjN ""] ∧
    Obj.getattr (exObjN "") "name" = some (Value.str "") ∧
    strStartsWith (strToLower "") (strToLower "") = true ∧
    exSB.find_all exStoreEmptyName "name: " = .val none := by
  refine ⟨?_, ?_, ?_, ?_, ?_⟩ <;> decide

/-- Claim C8 as amended: over candidates whose present values for the named
attribute are strings, `find_all` returns, in iteration order, exactly the
objects whose attribute is a truthy (nonempty) string that case-insensitively
starts with the given value (prefix match), and the explicit absent result
when no object matches. -/
theorem c8_find_all_prefix_match (sb : SubBranch) (store : Store) (q a v : String)
    (objs : List Obj) (hq : parseQuery q = some (a, v))
    (ho : sb.get_objects store = some objs)
    (hs : ∀ o ∈ objs, strOrAbsent o a = true) :
    sb.find_all store q =
      .val (if objs.filter (fun o => matchesQuery o a v) = [] then none
            else some (objs.filter (fun o => matchesQuery o a v))) :=
  find_all_eq_filter sb store q a v objs hq ho hs

/-- Witness for `c8_find_all_prefix_match`: over names John, Joanna and Mark
the query `name: jo` returns exactly the John and Joanna objects, in order,
and a query matching nothing returns the absent result. -/
theorem c8_find_all_prefix_match_witness :
    exSB.find_all exStoreNames "name: jo" =
      .val (some [exObjN "John", exObjN "Joanna"]) ∧
    exSB.find_all exStoreNames "name: zz" = .val none := by
  constructor
  · rw [c8_find_all_prefix_match exSB exStoreNames "name: jo" "name" "jo"
      [exObjN "John", exObjN "Joanna", exObjN "Mark"] (by decide) (by decide)
      (by decide)]
    decide
  · rw [c8_find_all_prefix_match exSB exStoreNames "name: zz" "name" "zz"
      [exObjN "John", exObjN "Joanna", exObjN "Mark"] (by decide) (by decide)
      (by decide)]
    decide

/-- Claim C9 (under the spec-modelled attribute access): a candidate object
lacking the queried attribute is silently skipped — `find_all` still returns
a value (no error) and the object is absent from the result. -/
theorem c9_find_all_missing_attribute (sb : SubBranch) (store : Store)
    (q a v : String) (objs : List Obj) (o : Obj)
    (hq : parseQuery q = some (a, v))
    (ho : sb.get_objects store = some objs)
    (hs : ∀ o2 ∈ objs, strOrAbsent o2 a = true)
    (hnone : Obj.getattr o a = none) :
    ∃ res, sb.find_all store q = .val res ∧ ∀ l, res = some l → o ∉ l := by
  refine ⟨_, find_all_eq_filter sb store q a v objs hq ho hs, ?_⟩
  intro l hl
  by_cases hemp : objs.filter (fun o2 => matchesQuery o2 a v) = []
  · rw [if_pos hemp] at hl
    exact Option.noConfusion hl
  · rw [if_neg hemp] at hl
    injection hl with hl
    subst hl
    intro hin
    have := (List.mem_filter.mp hin).2
    rw [matchesQuery, hnone] at this
    exact Bool.noConfusion this

/-- Witness for `c9_find_all_missing_attribute`: over a store holding one
named object and one object without a `name` attribute, the query succeeds
and the attribute-less object is not among the results. -/
theorem c9_find_all_missing_attribute_witness :
    ∃ res, exSB.find_all exStoreMixed "name: jo" = .val res ∧
      ∀ l, res = some l → exObjNoName ∉ l :=
  c9_find_all_missing_attribute exSB exStoreMixed "name: jo" "name" "jo"
    [exObjN "John", exObjNoName] exObjNoName (by decide) (by decide) (by decide)
    (by decide)

lemma process_kwargs_explicit_id (sb : SubBranch) (imp : Importer)
    (st : ImportState) (r kw : Attrs) (s : String)
    (hp : imp.kwargsPreprocessor r = some kw)
    (hid : Attrs.find? kw "idnumber" = some (Value.str s)) :
    sb.process_kwargs imp st r =
      if kw.any (fun p => p.2.isListOrSet) then
        { st with temp := tempAppend st.temp s (Attrs.eraseKey kw "idnumber") }
      else doMake sb imp st s (Attrs.eraseKey kw "idnumber") := by
  simp only [SubBranch.process_kwargs, hp, hid]

lemma process_kwargs_scalar_fresh (sb : SubBranch) (imp : Importer)
    (st : ImportState) (r kw : Attrs)
    (hp : imp.kwargsPreprocessor r = some kw)
    (hid : Attrs.find? kw "idnumber" = none)
    (hl : kw.any (fun p => p.2.isListOrSet) = false) :
    sb.process_kwargs imp st r =
      doMake sb imp { st with index := st.index + 1 } (toString st.index) kw := by
  simp only [SubBranch.process_kwargs, hp, hid, hl, Bool.false_eq_true, if_false]

lemma range_toString_succ (n k : Nat) :
    (List.range (n + 1)).map (fun i => toString (k + i)) =
      toString k :: (List.range n).map (fun i => toString (k + 1 + i)) := by
  rw [List.range_succ_eq_map, List.map_cons, List.map_map, Nat.add_zero]
  refine congrArg _ ?_
  refine congrArg (fun f => List.map f (List.range n)) ?_
  funext i
  show toString (k + Nat.succ i) = toString (k + 1 + i)
  exact congrArg toString (by omega)

lemma drain_scalar_records (sb : SubBranch) (imp : Importer)
    (records : List Attrs) (st : ImportState)
    (h : ∀ r ∈ records, imp.kwargsPreprocessor r = some r ∧
      Attrs.find? r "idnumber" = none ∧ r.any (fun p => p.2.isListOrSet) = false) :
    (records.foldl (fun acc r => sb.process_kwargs imp acc r) st).temp = st.temp ∧
    (records.foldl (fun acc r => sb.process_kwargs imp acc r) st).index =
      st.index + records.length ∧
    (records.foldl (fun acc r => sb.process_kwargs imp acc r) st).makeCalls.map
        Prod.fst =
      st.makeCalls.map Prod.fst ++
        (List.range records.length).map (fun i => toString (st.index + i)) := by
  induction records generalizing st with
  | nil => simp
  | cons r rs ih =>
    obtain ⟨hp, hid, hl⟩ := h r (List.mem_cons_self r rs)
    have hrs : ∀ r2 ∈ rs, imp.kwargsPreprocessor r2 = some r2 ∧
        Attrs.find? r2 "idnumber" = none ∧
        r2.any (fun p => p.2.isListOrSet) = false :=
      fun r2 hr2 => h r2 (List.mem_cons_of_mem r hr2)
    rw [List.foldl_cons, process_kwargs_scalar_fresh sb imp st r r hp hid hl]
    obtain ⟨h1, h2, h3⟩ :=
      ih (doMake sb imp { st with index := st.index + 1 } (toString st.index) r) hrs
    refine ⟨?_, ?_, ?_⟩
    · rw [h1]
      rfl
    · rw [h2]
      simp [doMake]
      omega
    · rw [h3]
      simp only [doMake]
      simp only [List.map_append, List.map_cons, List.map_nil, List.length_cons]
      rw [range_toString_succ rs.length st.index, List.append_assoc]
      rfl

lemma mergePhase_empty_temp (sb : SubBranch) (imp : Importer) (st : ImportState)
    (h : st.temp = []) : mergePhase sb imp st = st := by
  rw [mergePhase, h]
  rfl

lemma process_kwargs_fresh_id (sb : SubBranch) (imp : Importer)
    (st : ImportState) (r kw : Attrs)
    (hp : imp.kwargsPreprocessor r = some kw)
    (hid : Attrs.find? kw "idnumber" = none) :
    sb.process_kwargs imp st r =
      if kw.any (fun p => p.2.isListOrSet) then
        { st with temp := tempAppend st.temp (toString st.index) kw,
                  index := st.index + 1 }
      else doMake sb imp { st with index := st.index + 1 } (toString st.index) kw := by
  simp only [SubBranch.process_kwargs, hp, hid]

/-- Claim C10: during an import run, a preprocessed record with an explicit
`idnumber` attribute uses that value as its identifier, with the attribute
removed from the mapping and the run counter untouched; a record without one
is assigned the stringified current counter value and the counter is
incremented; and a whole run over records without explicit identifiers
produces the make-call identifiers `0`, `1`, ..., in read order, the counter
being reset at the start of the run. -/
theorem c10_identifier_assignment :
    (∀ (sb : SubBranch) (imp : Importer) (st : ImportState) (r kw : Attrs)
        (s : String),
      imp.kwargsPreprocessor r = some kw →
      Attrs.find? kw "idnumber" = some (Value.str s) →
      (sb.process_kwargs imp st r).index = st.index ∧
      (kw.any (fun p => p.2.isListOrSet) = true →
        sb.process_kwargs imp st r =
          { st with temp := tempAppend st.temp s (Attrs.eraseKey kw "idnumber") }) ∧
      (kw.any (fun p => p.2.isListOrSet) = false →
        sb.process_kwargs imp st r =
          doMake sb imp st s (Attrs.eraseKey kw "idnumber"))) ∧
    (∀ (sb : SubBranch) (imp : Importer) (st : ImportState) (r kw : Attrs),
      imp.kwargsPreprocessor r = some kw →
      Attrs.find? kw "idnumber" = none →
      (sb.process_kwargs imp st r).index = st.index + 1 ∧
      (kw.any (fun p => p.2.isListOrSet) = true →
        sb.process_kwargs imp st r =
          { st with temp := tempAppend st.temp (toString st.index) kw,
                    index := st.index + 1 }) ∧
      (kw.any (fun p => p.2.isListOrSet) = false →
        sb.process_kwargs imp st r =
          doMake sb imp { st with index := st.index + 1 } (toString st.index) kw)) ∧
    (∀ (sb : SubBranch) (imp : Importer) (records : List Attrs) (store0 : Store),
      (∀ r ∈ records, imp.kwargsPreprocessor r = some r ∧
        Attrs.find? r "idnumber" = none ∧
        r.any (fun p => p.2.isListOrSet) = false) →
      (sb.posRun imp records store0).makeCalls.map Prod.fst =
        (List.range records.length).map (fun i => toString i)) := by
  refine ⟨?_, ?_, ?_⟩
  · intro sb imp st r kw s hp hid
    have he := process_kwargs_explicit_id sb imp st r kw s hp hid
    refine ⟨?_, ?_, ?_⟩
    · rw [he]
      by_cases hl : kw.any (fun p => p.2.isListOrSet) = true
      · rw [if_pos hl]
      · rw [if_neg hl]
        simp [doMake]
    · intro hl
      rw [he, if_pos hl]
    · intro hl
      rw [he, if_neg ?_]
      rw [hl]
      simp
  · intro sb imp st r kw hp hid
    have he := process_kwargs_fresh_id sb imp st r kw hp hid
    refine ⟨?_, ?_, ?_⟩
    · rw [he]
      by_cases hl : kw.any (fun p => p.2.isListOrSet) = true
      · rw [if_pos hl]
      · rw [if_neg hl]
        simp [doMake]
    · intro hl
      rw [he, if_pos hl]
    · intro hl
      rw [he, if_neg ?_]
      rw [hl]
      simp
  · intro sb imp records store0 h
    have hd := drain_scalar_records sb imp records
      { temp := [], index := 0, store := store0, makeCalls := [] } h
    simp only [SubBranch.posRun]
    rw [mergePhase_empty_temp sb imp _ hd.1]
    rw [hd.2.2]
    simp

/-- Witness for `c10_identifier_assignment`: a record with explicit
identifier 7 finalizes under identifier 7 with the attribute removed, and a
run of three scalar-only records yields make calls under `0`, `1`, `2` in
read order. -/
theorem c10_identifier_assignment_witness :
    exSB.process_kwargs defaultImporter exState0 exRec7 =
      doMake exSB defaultImporter exState0 "7" (Attrs.eraseKey exRec7 "idnumber") ∧
    (exSB.posRun defaultImporter exScalarRecords []).makeCalls.map Prod.fst =
      (List.range exScalarRecords.length).map (fun i => toString i) :=
  ⟨(c10_identifier_assignment.1 exSB defaultImporter exState0 exRec7 exRec7 "7"
      (by decide) (by decide)).2.2 (by decide),
   c10_identifier_assignment.2.2 exSB defaultImporter exScalarRecords []
     (by decide)⟩
